import Mathlib

/-!
Shallow embedding of the BRiCS gsplat viewer's session-resolution and
asynchronous asset-loading subsystem (examples/simple_viewer_2dgs_brics.py and
examples/gsplat_viewer_2dgs_brics.py), with theorems checking the
natural-language specification's claims against the code.

Strings are manipulated through their character lists so that every
definition evaluates inside the kernel.
-/

namespace GsplatBrics

/-- Interpret a run of ASCII digit characters as a natural number
(Python `int(m.group(1))`). -/
def natOfDigits (cs : List Char) : Nat :=
  cs.foldl (fun a c => a * 10 + (c.toNat - 48)) 0

/-- Python `haystack.startswith(pre)` on character lists. -/
def strStarts (pre s : String) : Bool :=
  pre.toList.isPrefixOf s.toList

/-- Python `haystack.endswith(suf)` on character lists. -/
def strEnds (suf s : String) : Bool :=
  suf.toList.isSuffixOf s.toList

/-- The checkpoint filename pattern shared by `_find_best_ckpt`
(simple_viewer_2dgs_brics.py line 50, extensions `["pt"]`) and
`_scan_ckpt_files` (gsplat_viewer_2dgs_brics.py lines 281/293, extensions
`["pt", "pth"]`): Python regex `^ckpt_(\d+)(?:_rank\d+)?\.(ext)$` applied to a
filename, returning the captured version number on a match. -/
def parseCkpt (exts : List String) (n : String) : Option Nat :=
  let cs := n.toList
  if "ckpt_".toList.isPrefixOf cs then
    let rest := cs.drop 5
    let ds := rest.takeWhile Char.isDigit
    let tl := rest.drop ds.length
    if ds = [] then none
    else if exts.any (fun e => tl = ("." ++ e).toList) then some (natOfDigits ds)
    else if "_rank".toList.isPrefixOf tl then
      let r2 := tl.drop 5
      let ds2 := r2.takeWhile Char.isDigit
      let tl2 := r2.drop ds2.length
      if ds2 ≠ [] ∧ exts.any (fun e => tl2 = ("." ++ e).toList) then some (natOfDigits ds)
      else none
    else none
  else none

example : parseCkpt ["pt"] "ckpt_10.pt" = some 10 := by decide
example : parseCkpt ["pt"] "ckpt_10_rank0.pt" = some 10 := by decide
example : parseCkpt ["pt"] "ckpt_7.pth" = none := by decide
example : parseCkpt ["pt", "pth"] "ckpt_7.pth" = some 7 := by decide
example : parseCkpt ["pt"] "ckpt_.pt" = none := by decide
example : parseCkpt ["pt"] "ckpt_3_rank.pt" = none := by decide
example : parseCkpt ["pt"] "xckpt_3.pt" = none := by decide

/-- Basename of a path string (Python `p.name`): the component after the last
slash. -/
def baseNameOf (p : String) : String :=
  ((p.toList.splitOn '/').reverse.headD []).asString

example : baseNameOf "/s/deep/ckpt_5.pt" = "ckpt_5.pt" := by decide

/-- The fields extracted from a successfully loaded and GPU-processed
checkpoint (simple_viewer_2dgs_brics.py lines 98-107: `means`, normalized
`quats`, exponentiated `scales`, sigmoided `opacities`, concatenated `colors`,
derived `sh_degree`).  The tensors are opaque to this development; each is
modelled as an abstract identifier. -/
structure Splats where
  means : Nat
  quats : Nat
  scales : Nat
  opacities : Nat
  colors : Nat
  shDegree : Nat
  deriving DecidableEq, Repr

/-- Result of `torch.load` plus GPU processing (the `try` block, lines
97-107): either the processed splats or an exception message. -/
inductive LoadRes where
  | ok (sp : Splats)
  | err (msg : String)
  deriving DecidableEq, Repr

/-- Abstract read-only filesystem, as consumed by the viewer code. -/
structure FS where
  /-- `str(Path(p).resolve())` (line 78).  Symlink/relative-path resolution
  is filesystem state, so it lives here. -/
  resolve : String → String
  /-- `Path(p).exists()` (line 45). -/
  pathExists : String → Bool
  /-- `Path(p).is_dir()` (gsplat_viewer line 273). -/
  isDir : String → Bool
  /-- Names of the files directly under a directory, in glob enumeration
  order (`ckpts_dir.glob(...)`, line 49). -/
  dirFiles : String → List String
  /-- Full paths of all files recursively under a directory, in rglob
  enumeration order (gsplat_viewer line 292). -/
  rglobFiles : String → List String
  /-- `torch.load` + processing of a checkpoint file (lines 98-107). -/
  loadResult : String → LoadRes

/-- `_find_best_ckpt` (simple_viewer_2dgs_brics.py lines 42-57): look only in
`dir_path/ckpts`, glob `ckpt_*.pt`, keep the path with the strictly largest
parsed version; `(None, -1)` when the subdirectory is missing or nothing
matches.  There is no recursive fallback here. -/
def findBestCkpt (fs : FS) (dirPath : String) : Option String × Int :=
  let ckptsDir := dirPath ++ "/ckpts"
  if ¬ fs.pathExists ckptsDir then (none, -1)
  else
    ((fs.dirFiles ckptsDir).filter
        (fun n => strStarts "ckpt_" n && strEnds ".pt" n)).foldl
      (fun best n =>
        match parseCkpt ["pt"] n with
        | none => best
        | some v =>
          if (v : Int) > best.2 then (some (ckptsDir ++ "/" ++ n), v) else best)
      ((none : Option String), (-1 : Int))

/-- The mutable `data` dict holding the currently displayed scene
(simple_viewer_2dgs_brics.py lines 25-34); every field starts as `None`. -/
structure SceneData where
  means : Option Nat
  quats : Option Nat
  scales : Option Nat
  opacities : Option Nat
  colors : Option Nat
  shDegree : Option Nat
  ckptNum : Option Int
  dir : Option String
  deriving DecidableEq, Repr

/-- The all-`None` initial `data` dict. -/
def SceneData.initial : SceneData :=
  { means := none, quats := none, scales := none, opacities := none
    colors := none, shDegree := none, ckptNum := none, dir := none }

/-- `CACHE_SIZE = 2` (line 37). -/
def CACHE_SIZE : Nat := 2

/-- The scene cache is a Python `OrderedDict` (line 38), embedded as an
association list in insertion order: head = oldest inserted. -/
abbrev Cache := List (String × SceneData)

/-- `key in cache` / `cache[key]` read access (lines 80-81).  Reading does
not reorder the `OrderedDict`. -/
def cacheGet (c : Cache) (k : String) : Option SceneData :=
  (c.find? (fun kv => kv.1 = k)).map (·.2)

/-- `cache[key] = value` on an `OrderedDict` (line 129): an existing key is
updated in place keeping its position; a new key is appended at the
most-recent end. -/
def cacheAssign (c : Cache) (k : String) (v : SceneData) : Cache :=
  if c.any (fun kv => kv.1 = k) then
    c.map (fun kv => if kv.1 = k then (k, v) else kv)
  else c ++ [(k, v)]

/-- `while len(cache) > CACHE_SIZE: cache.popitem(last=False)` (lines
131-132): pop from the oldest end until within capacity. -/
def enforceCacheSize : Cache → Cache
  | [] => []
  | x :: xs => if (x :: xs).length > CACHE_SIZE then enforceCacheSize xs else x :: xs

/-- The complete cache-insertion step performed by `_do_load` on a successful
load (lines 129-132). -/
def cachePut (c : Cache) (k : String) (v : SceneData) : Cache :=
  enforceCacheSize (cacheAssign c k v)

/-- The viewer-side state touched by the load machinery: the shared `data`
dict, the scene cache, the current request token `load_token["id"]`
(line 40), and the status banner written through `viewer.set_loading`
(a `(loading-flag, message)` pair, gsplat_viewer lines 241-249). -/
structure ViewerState where
  data : SceneData
  cache : Cache
  token : Nat
  status : Bool × String
  deriving DecidableEq, Repr

/-- State at startup: empty `data`, empty cache, token 0, idle banner. -/
def ViewerState.initial : ViewerState :=
  { data := SceneData.initial, cache := [], token := 0, status := (false, "Idle") }

/-- Which branch of `_do_load` terminated the call; a labelling of the
source's `return` points, added so theorems can speak about the path taken. -/
inductive Outcome where
  /-- lines 62-66: `_find_best_ckpt` found nothing. -/
  | notFound
  /-- lines 68-76: resolved `(dir, ckpt_num)` equals the displayed one. -/
  | alreadyLoaded
  /-- lines 83-86: cache hit published under a still-current token. -/
  | cachedPublished
  /-- lines 84-85: cache hit but the token was superseded; silent return. -/
  | cachedSuperseded
  /-- lines 108-112: `torch.load`/processing raised. -/
  | loadFailed
  /-- lines 115-116: load succeeded but the token was superseded. -/
  | loadedSuperseded
  /-- lines 117-141: load succeeded, token current, published and cached. -/
  | loadedPublished
  deriving DecidableEq, Repr

/-- Lines 96-141 of `_do_load`: the load attempt and its completion, reached
either on a cache miss or when the cached entry's `ckpt_num` is stale.
`tokenId != load_token["id"]` is checked, and `data`/cache are written,
inside one `with load_lock` block (lines 114-132). -/
def doLoadStage (fs : FS) (tokenId : Nat) (bestPath : String) (bestNum : Int)
    (key : String) (s : ViewerState) : ViewerState × Outcome :=
  match fs.loadResult bestPath with
  | .err e => ({ s with status := (false, "Error: " ++ e) }, .loadFailed)
  | .ok sp =>
    if tokenId ≠ s.token then (s, .loadedSuperseded)
    else
      let newData : SceneData :=
        { means := some sp.means, quats := some sp.quats, scales := some sp.scales
          opacities := some sp.opacities, colors := some sp.colors
          shDegree := some sp.shDegree, ckptNum := some bestNum, dir := some key }
      ({ s with data := newData, cache := cachePut s.cache key newData
                status := (false, "Loaded " ++ baseNameOf bestPath) },
       .loadedPublished)

/-- `_do_load(dir_path, token_id)` (simple_viewer_2dgs_brics.py lines
59-141), run to completion.  Mirrors the source order: resolve best
checkpoint; bail out `NotFound`; short-circuit when already displayed
(comparison against the unresolved `str(dir_path)`, line 69); try the cache
under the resolved key (lines 78-94); otherwise load (via `doLoadStage`). -/
def doLoad (fs : FS) (dirPath : String) (tokenId : Nat) (s : ViewerState) :
    ViewerState × Outcome :=
  match findBestCkpt fs dirPath with
  | (none, _) =>
    ({ s with status := (false, "No ckpt_*.pt in " ++ dirPath ++ "/ckpts") },
     .notFound)
  | (some bestPath, bestNum) =>
    if s.data.dir = some dirPath ∧ s.data.ckptNum = some bestNum then
      ({ s with status := (false, "Already loaded ckpt_" ++ toString bestNum ++ ".pt") },
       .alreadyLoaded)
    else
      let key := fs.resolve dirPath
      match cacheGet s.cache key with
      | some cached =>
        if cached.ckptNum = some bestNum then
          if tokenId ≠ s.token then (s, .cachedSuperseded)
          else
            ({ s with data := cached
                      status := (false, "Cached ckpt_" ++ toString bestNum ++ ".pt") },
             .cachedPublished)
        else doLoadStage fs tokenId bestPath bestNum key s
      | none => doLoadStage fs tokenId bestPath bestNum key s

/-- `request_load(dir_path)` (lines 143-151): announce loading, then under
the lock increment the token; returns the captured token handed to the
spawned `_do_load` thread. -/
def requestLoad (dirPath : String) (s : ViewerState) : ViewerState × Nat :=
  ({ s with status := (true, "Loading from " ++ dirPath ++ "...")
            token := s.token + 1 },
   s.token + 1)

/-- A request whose background load runs to completion with no interleaving:
`request_load` immediately followed by the full `_do_load`. -/
def requestThenLoad (fs : FS) (dirPath : String) (s : ViewerState) :
    ViewerState × Outcome :=
  let r := requestLoad dirPath s
  doLoad fs dirPath r.2 r.1

/-!
Interleaved coordinator model.  Background `_do_load` threads interleave with
new `request_load` calls; the atomic units are the `with load_lock` critical
sections of the source: the token increment of `request_load` (lines
147-149), and the token-check-then-publish of a completed load (lines 83-86
and 114-132).  A failed load writes the status banner without taking the lock
or checking the token (lines 108-112) and never touches the payload.  The
machine tracks the issued-token counter and the published payload; payloads
are abstracted to the identifier carried by the completing publish event.
-/

/-- One atomic coordinator event: a new request (token increment), a
completed load of token `t` attempting to publish payload `p`, or a failed
load of token `t`. -/
inductive CoordEv where
  | req
  | pub (t p : Nat)
  | fail (t : Nat)
  deriving DecidableEq, Repr

/-- Coordinator state: `counter` is `load_token["id"]`; `display` is the
identifier of the currently published payload (`None` before any publish). -/
structure Coord where
  counter : Nat
  display : Option Nat
  deriving DecidableEq, Repr

/-- The atomic step: `req` increments the token; `pub t p` publishes only if
`t` equals the current token — comparison and mutation are one step, as the
source performs both inside one `with load_lock` block; `fail` never touches
the payload. -/
def coordStep (s : Coord) (e : CoordEv) : Coord :=
  match e with
  | .req => { s with counter := s.counter + 1 }
  | .pub t p => if t = s.counter then { s with display := some p } else s
  | .fail _ => s

/-- Run a trace of coordinator events. -/
def coordRun (s : Coord) (es : List CoordEv) : Coord :=
  es.foldl coordStep s

/-- Number of `req` events in a trace. -/
def numReqs (es : List CoordEv) : Nat :=
  es.countP (fun e => match e with | .req => true | _ => false)

/-- Tokens whose resolution completed with a payload (a `pub` event exists
for them), in trace order. -/
def completedTokens (es : List CoordEv) : List Nat :=
  es.filterMap (fun e => match e with | .pub t _ => some t | _ => none)

/-- Well-formed settled traces: starting with `n` tokens already issued and
the tokens in `pend` still awaiting their outcome, the trace issues fresh
strictly increasing tokens and delivers exactly one outcome (publish or
failure) for every token — "all outcomes have settled". -/
inductive Settles : Nat → List Nat → List CoordEv → Prop where
  | nil : ∀ {n}, Settles n [] []
  | req : ∀ {n pend tr}, Settles (n + 1) ((n + 1) :: pend) tr →
      Settles n pend (.req :: tr)
  | pub : ∀ {n pend tr t p}, t ∈ pend → Settles n (pend.erase t) tr →
      Settles n pend (.pub t p :: tr)
  | fail : ∀ {n pend tr t}, t ∈ pend → Settles n (pend.erase t) tr →
      Settles n pend (.fail t :: tr)

/-- Settled traces in which every outcome is a successful resolution, the
payload produced by token `t` being `pay t`. -/
inductive SettlesOk (pay : Nat → Nat) : Nat → List Nat → List CoordEv → Prop where
  | nil : ∀ {n}, SettlesOk pay n [] []
  | req : ∀ {n pend tr}, SettlesOk pay (n + 1) ((n + 1) :: pend) tr →
      SettlesOk pay n pend (.req :: tr)
  | pub : ∀ {n pend tr t}, t ∈ pend → SettlesOk pay n (pend.erase t) tr →
      SettlesOk pay n pend (.pub t (pay t) :: tr)

lemma numReqs_cons_req (tr : List CoordEv) : numReqs (.req :: tr) = numReqs tr + 1 := by
  simp [numReqs, List.countP_cons]

lemma numReqs_cons_pub (t p : Nat) (tr : List CoordEv) :
    numReqs (.pub t p :: tr) = numReqs tr := by
  simp [numReqs, List.countP_cons]

lemma numReqs_cons_fail (t : Nat) (tr : List CoordEv) :
    numReqs (.fail t :: tr) = numReqs tr := by
  simp [numReqs, List.countP_cons]

/-- Display after an all-success settled trace: if some pending or future
token exists, the display ends at the payload of the highest token overall;
otherwise it is untouched.  Induction over the settling derivation. -/
lemma settlesOk_display (pay : Nat → Nat) {tr : List CoordEv} {n : Nat}
    {pend : List Nat} (h : SettlesOk pay n pend tr) :
    ∀ s : Coord, (∀ t ∈ pend, t ≤ n) → pend.Nodup → s.counter = n →
      (coordRun s tr).display =
        if n ∈ pend ∨ 0 < numReqs tr then some (pay (n + numReqs tr))
        else s.display := by
  induction h with
  | nil =>
    intro s _ _ _
    simp [coordRun, numReqs]
  | @req n pend tr _ ih =>
    intro s hle hnd hc
    have hstep : coordRun s (.req :: tr) = coordRun (coordStep s .req) tr := rfl
    have hle' : ∀ t ∈ (n + 1) :: pend, t ≤ n + 1 := by
      intro t ht
      rcases List.mem_cons.mp ht with h1 | h1
      · omega
      · exact Nat.le_succ_of_le (hle t h1)
    have hnd' : ((n + 1) :: pend).Nodup := by
      refine List.nodup_cons.mpr ⟨?_, hnd⟩
      intro hmem
      exact absurd (hle _ hmem) (by omega)
    have hc' : (coordStep s .req).counter = n + 1 := by
      simp [coordStep, hc]
    have hrec := ih (coordStep s .req) hle' hnd' hc'
    rw [hstep, hrec, numReqs_cons_req]
    have hmem : (n + 1) ∈ (n + 1) :: pend := List.mem_cons_self _ _
    rw [if_pos (Or.inl hmem), if_pos (Or.inr (by omega))]
    congr 2
    omega
  | @pub n pend tr t hmem _ ih =>
    intro s hle hnd hc
    have hstep : coordRun s (.pub t (pay t) :: tr)
        = coordRun (coordStep s (.pub t (pay t))) tr := rfl
    have hle' : ∀ u ∈ pend.erase t, u ≤ n :=
      fun u hu => hle u (List.mem_of_mem_erase hu)
    have hnd' : (pend.erase t).Nodup := hnd.erase t
    rw [hstep, numReqs_cons_pub]
    by_cases het : t = s.counter
    · have ht : t = n := by rw [het, hc]
      subst ht
      have hsd : coordStep s (.pub t (pay t)) = { s with display := some (pay t) } := by
        simp [coordStep, het]
      have hc' : ({ s with display := some (pay t) } : Coord).counter = t := hc
      have hrec := ih ({ s with display := some (pay t) }) hle' hnd' hc'
      rw [hsd, hrec]
      have hne : t ∉ pend.erase t := fun hx =>
        absurd (hnd.mem_erase_iff.mp hx).1 (by simp)
      rw [if_pos (Or.inl hmem)]
      by_cases hr : 0 < numReqs tr
      · rw [if_pos (Or.inr hr)]
      · rw [if_neg (by simp [hne, hr])]
        have hz : numReqs tr = 0 := by omega
        simp [hz]
    · have hsd : coordStep s (.pub t (pay t)) = s := by
        simp [coordStep, het]
      have hrec := ih s hle' hnd' hc
      rw [hsd, hrec]
      have hiff : n ∈ pend.erase t ↔ n ∈ pend := by
        constructor
        · exact List.mem_of_mem_erase
        · intro hx
          refine (List.mem_erase_of_ne ?_).mpr hx
          intro he
          apply het
          rw [← he, ← hc]
      by_cases hn : n ∈ pend ∨ 0 < numReqs tr
      · rw [if_pos hn, if_pos ?_]
        rcases hn with hn | hn
        · exact Or.inl (hiff.mpr hn)
        · exact Or.inr hn
      · rw [if_neg hn, if_neg ?_]
        intro hx
        rcases hx with hx | hx
        · exact hn (Or.inl (hiff.mp hx))
        · exact hn (Or.inr hx)

/-- The coordinator starts with no tokens issued and nothing displayed. -/
def Coord.initial : Coord := { counter := 0, display := none }

/-- C1 (amended): once all outcomes have settled and every settled outcome
is a successful resolution, the published payload is the one produced by the
request holding the maximum token (the number of requests issued), regardless
of the completion order encoded in the trace; and the display is only ever
mutated by a publish event holding the current maximum token — the token
comparison and the mutation being a single atomic step of the machine, as in
the source's `with load_lock` block. -/
theorem c1_amended_max_token_wins (pay : Nat → Nat) (tr : List CoordEv)
    (h : SettlesOk pay 0 [] tr) (hpos : 0 < numReqs tr) :
    (coordRun Coord.initial tr).display = some (pay (numReqs tr))
    ∧ ∀ (s : Coord) (e : CoordEv), (coordStep s e).display ≠ s.display →
        ∃ p, e = CoordEv.pub s.counter p := by
  constructor
  · have hrun := settlesOk_display pay h Coord.initial
      (by intro t ht; cases ht) List.nodup_nil rfl
    rw [hrun, if_pos (Or.inr hpos)]
    simp
  · intro s e hne
    cases e with
    | req => exact absurd rfl hne
    | pub t p =>
      by_cases het : t = s.counter
      · exact ⟨p, by rw [het]⟩
      · exact absurd (by simp [coordStep, het]) hne
    | fail t => exact absurd rfl hne

/-- Concrete witness trace for `c1_amended_max_token_wins`: one request whose
load completes and publishes. -/
theorem c1_amended_max_token_wins_witness :
    (coordRun Coord.initial [CoordEv.req, CoordEv.pub 1 101]).display = some 101 := by
  have hs : SettlesOk (fun t => 100 + t) 0 [] [CoordEv.req, CoordEv.pub 1 101] :=
    SettlesOk.req (SettlesOk.pub (List.mem_singleton.mpr rfl) SettlesOk.nil)
  exact (c1_amended_max_token_wins (fun t => 100 + t) _ hs (by decide)).1

/-- The trace refuting C1 as stated: two requests; the first request's load
completes successfully (token 1, payload 101) after being superseded, the
second request's load fails. -/
def trC1 : List CoordEv := [.req, .req, .pub 1 101, .fail 2]

/-- C1 as stated is false: in the settled trace `trC1`, token 1 is the
maximum token whose resolution completed with a payload (token 2 failed),
yet the final display is not its payload 101 — the superseded completion was
discarded, so the display still holds nothing. -/
theorem c1_counterexample :
    Settles 0 [] trC1
    ∧ completedTokens trC1 = [1]
    ∧ CoordEv.pub 1 101 ∈ trC1
    ∧ (coordRun Coord.initial trC1).display = none
    ∧ (coordRun Coord.initial trC1).display ≠ some 101 := by
  refine ⟨?_, by decide, by decide, by decide, by decide⟩
  exact Settles.req (Settles.req (Settles.pub (by decide)
    (Settles.fail (by decide) Settles.nil)))

/-!  Concrete filesystems and states used by witnesses and counterexamples. -/

/-- A sample processed checkpoint. -/
def spA : Splats := ⟨11, 12, 13, 14, 15, 3⟩

/-- A filesystem with a single checkpoint `ckpt_1.pt` under every `ckpts`
directory, loading successfully; paths are already in resolved form. -/
def fsOk : FS :=
  { resolve := fun p => p
    pathExists := fun _ => true
    isDir := fun _ => true
    dirFiles := fun _ => ["ckpt_1.pt"]
    rglobFiles := fun _ => []
    loadResult := fun _ => .ok spA }

/-- Like `fsOk` but every load raises. -/
def fsBad : FS := { fsOk with loadResult := fun _ => .err "boom" }

/-- A filesystem with no `ckpts` directories at all. -/
def fsNone : FS :=
  { fsOk with pathExists := fun _ => false, dirFiles := fun _ => [] }

/-- A state in which two requests have already been issued (current token 2)
but nothing was displayed yet. -/
def sTok2 : ViewerState := { ViewerState.initial with token := 2 }

/-- Auxiliary: the cache drains from the front until within capacity. -/
lemma enforceCacheSize_of_le (c : Cache) (h : c.length ≤ CACHE_SIZE) :
    enforceCacheSize c = c := by
  cases c with
  | nil => rfl
  | cons x xs =>
    unfold enforceCacheSize
    rw [if_neg (by omega)]

/-- Auxiliary: after the source's insert-then-evict step on a cache within
capacity, the inserted key is present and maps to the inserted value. -/
lemma cacheGet_cachePut (c : Cache) (k : String) (v : SceneData)
    (h : c.length ≤ CACHE_SIZE) :
    cacheGet (cachePut c k v) k = some v := by
  match c with
  | [] => simp [cachePut, cacheAssign, enforceCacheSize, cacheGet, CACHE_SIZE]
  | [a] =>
    by_cases ha : a.1 = k <;>
      simp [cachePut, cacheAssign, enforceCacheSize, cacheGet, CACHE_SIZE,
        List.find?, ha]
  | [a, b] =>
    by_cases ha : a.1 = k <;> by_cases hb : b.1 = k <;>
      simp [cachePut, cacheAssign, enforceCacheSize, cacheGet, CACHE_SIZE,
        List.find?, ha, hb]
  | x :: y :: z :: rest => simp [CACHE_SIZE] at h

/-- C2 as stated is false: with two requests issued (current token 2), the
load for superseded token 1 completes successfully, yet nothing is inserted
into the cache — the token check precedes the cache insertion, so the state
is returned exactly as it was and a later request for the same directory
cannot hit the cache. -/
theorem c2_counterexample :
    (doLoad fsOk "/s" 1 sTok2).2 = Outcome.loadedSuperseded
    ∧ fsOk.loadResult "/s/ckpts/ckpt_1.pt" = LoadRes.ok spA
    ∧ (doLoad fsOk "/s" 1 sTok2).1 = sTok2
    ∧ cacheGet (doLoad fsOk "/s" 1 sTok2).1.cache (fsOk.resolve "/s") = none := by
  refine ⟨by decide, rfl, by decide, by decide⟩

/-- C2 (amended): a background load that completes successfully after its
token has been superseded discards the publish and the cache insertion
together — the completed call leaves the whole state untouched; only a load
that is still current at completion publishes, and that load does insert the
loaded payload into the cache under its resolved key. -/
theorem c2_amended_superseded_discards_cache (fs : FS) (d : String) (t : Nat)
    (s : ViewerState) (hlen : s.cache.length ≤ CACHE_SIZE) :
    ((doLoad fs d t s).2 = Outcome.loadedSuperseded → (doLoad fs d t s).1 = s)
    ∧ ((doLoad fs d t s).2 = Outcome.loadedPublished →
        t = s.token
        ∧ cacheGet (doLoad fs d t s).1.cache (fs.resolve d)
            = some (doLoad fs d t s).1.data) := by
  rcases hfb : findBestCkpt fs d with ⟨_ | bp, bn⟩
  · simp [doLoad, hfb]
  · by_cases hal : s.data.dir = some d ∧ s.data.ckptNum = some bn
    · simp [doLoad, hfb, hal]
    · rcases hcg : cacheGet s.cache (fs.resolve d) with _ | cached
      · rcases hlr : fs.loadResult bp with sp | e
        · by_cases ht : t = s.token
          · simp [doLoad, hfb, hal, hcg, doLoadStage, hlr, ht,
              cacheGet_cachePut _ _ _ hlen]
          · simp [doLoad, hfb, hal, hcg, doLoadStage, hlr, ht]
        · simp [doLoad, hfb, hal, hcg, doLoadStage, hlr]
      · by_cases hcn : cached.ckptNum = some bn
        · by_cases ht : t = s.token <;>
            simp [doLoad, hfb, hal, hcg, hcn, ht]
        · rcases hlr : fs.loadResult bp with sp | e
          · by_cases ht : t = s.token
            · simp [doLoad, hfb, hal, hcg, hcn, doLoadStage, hlr, ht,
                cacheGet_cachePut _ _ _ hlen]
            · simp [doLoad, hfb, hal, hcg, hcn, doLoadStage, hlr, ht]
          · simp [doLoad, hfb, hal, hcg, hcn, doLoadStage, hlr]

/-- Concrete witness for `c2_amended_superseded_discards_cache`: applying it
to the superseded-load scenario shows the state is returned unchanged. -/
theorem c2_amended_superseded_discards_cache_witness :
    (doLoad fsOk "/s" 1 sTok2).1 = sTok2 :=
  (c2_amended_superseded_discards_cache fsOk "/s" 1 sTok2 (by decide)).1 (by decide)

/-- C5 as stated is false: a load that fails after its token was superseded
(token 1 while the current token is 2) still mutates the status — the
failure path writes the `Error` banner without consulting the token, so the
failure is not discarded silently. -/
theorem c5_counterexample :
    (1 : Nat) ≠ sTok2.token
    ∧ (doLoad fsBad "/s" 1 sTok2).2 = Outcome.loadFailed
    ∧ (doLoad fsBad "/s" 1 sTok2).1.status = (false, "Error: boom")
    ∧ (doLoad fsBad "/s" 1 sTok2).1.status ≠ sTok2.status := by
  refine ⟨by decide, by decide, by decide, by decide⟩

/-- C5 (amended): when a background load fails, the status is set to `Error`
with the failure reason regardless of whether the token is still current —
the statement carries no currency hypothesis — while the prior payload,
cache and token are left untouched in all cases. -/
theorem c5_amended_failure_always_reports (fs : FS) (d : String) (t : Nat)
    (s : ViewerState) (h : (doLoad fs d t s).2 = Outcome.loadFailed) :
    (doLoad fs d t s).1.data = s.data
    ∧ (doLoad fs d t s).1.cache = s.cache
    ∧ (doLoad fs d t s).1.token = s.token
    ∧ ∃ m, (doLoad fs d t s).1.status = (false, "Error: " ++ m) := by
  rcases hfb : findBestCkpt fs d with ⟨_ | bp, bn⟩
  · simp [doLoad, hfb] at h
  · by_cases hal : s.data.dir = some d ∧ s.data.ckptNum = some bn
    · simp [doLoad, hfb, hal] at h
    · rcases hcg : cacheGet s.cache (fs.resolve d) with _ | cached
      · rcases hlr : fs.loadResult bp with sp | e
        · by_cases ht : t = s.token <;>
            simp [doLoad, hfb, hal, hcg, doLoadStage, hlr, ht] at h
        · exact ⟨by simp [doLoad, hfb, hal, hcg, doLoadStage, hlr],
            by simp [doLoad, hfb, hal, hcg, doLoadStage, hlr],
            by simp [doLoad, hfb, hal, hcg, doLoadStage, hlr],
            e, by simp [doLoad, hfb, hal, hcg, doLoadStage, hlr]⟩
      · by_cases hcn : cached.ckptNum = some bn
        · by_cases ht : t = s.token <;>
            simp [doLoad, hfb, hal, hcg, hcn, ht] at h
        · rcases hlr : fs.loadResult bp with sp | e
          · by_cases ht : t = s.token <;>
              simp [doLoad, hfb, hal, hcg, hcn, doLoadStage, hlr, ht] at h
          · exact ⟨by simp [doLoad, hfb, hal, hcg, hcn, doLoadStage, hlr],
              by simp [doLoad, hfb, hal, hcg, hcn, doLoadStage, hlr],
              by simp [doLoad, hfb, hal, hcg, hcn, doLoadStage, hlr],
              e, by simp [doLoad, hfb, hal, hcg, hcn, doLoadStage, hlr]⟩

/-- Concrete witness for `c5_amended_failure_always_reports` at the
superseded failing load. -/
theorem c5_amended_failure_always_reports_witness :
    (doLoad fsBad "/s" 1 sTok2).1.data = sTok2.data :=
  (c5_amended_failure_always_reports fsBad "/s" 1 sTok2 (by decide)).1

/-- C6: every failure outcome — resolution yielding `NotFound`, or a load
failure — leaves the displayed scene data and the cache exactly as they
were; moreover the cache changes at all only when a successful load
publishes, so a failed or partial load is never inserted. -/
theorem c6_failure_preserves_display (fs : FS) (d : String) (t : Nat)
    (s : ViewerState) :
    (((doLoad fs d t s).2 = Outcome.notFound
        ∨ (doLoad fs d t s).2 = Outcome.loadFailed) →
      (doLoad fs d t s).1.data = s.data ∧ (doLoad fs d t s).1.cache = s.cache)
    ∧ ((doLoad fs d t s).1.cache ≠ s.cache →
        (doLoad fs d t s).2 = Outcome.loadedPublished) := by
  rcases hfb : findBestCkpt fs d with ⟨_ | bp, bn⟩
  · simp [doLoad, hfb]
  · by_cases hal : s.data.dir = some d ∧ s.data.ckptNum = some bn
    · simp [doLoad, hfb, hal]
    · rcases hcg : cacheGet s.cache (fs.resolve d) with _ | cached
      · rcases hlr : fs.loadResult bp with sp | e
        · by_cases ht : t = s.token <;>
            simp [doLoad, hfb, hal, hcg, doLoadStage, hlr, ht]
        · simp [doLoad, hfb, hal, hcg, doLoadStage, hlr]
      · by_cases hcn : cached.ckptNum = some bn
        · by_cases ht : t = s.token <;>
            simp [doLoad, hfb, hal, hcg, hcn, ht]
        · rcases hlr : fs.loadResult bp with sp | e
          · by_cases ht : t = s.token <;>
              simp [doLoad, hfb, hal, hcg, hcn, doLoadStage, hlr, ht]
          · simp [doLoad, hfb, hal, hcg, hcn, doLoadStage, hlr]

/-- Concrete witness for `c6_failure_preserves_display`: a `NotFound`
resolution leaves the displayed data unchanged. -/
theorem c6_failure_preserves_display_witness :
    (doLoad fsNone "/x" 1 sTok2).1.data = sTok2.data :=
  ((c6_failure_preserves_display fsNone "/x" 1 sTok2).1 (Or.inl (by decide))).1

/-- C9: requesting the same (resolved-form) directory a second time with
nothing changed on disk short-circuits through the "already loaded" branch
before any cache lookup or load, leaving the displayed payload and the cache
untouched and setting only the status banner.  Directories arriving from a
session selection are always in resolved form (`_resolve_gsplat_dir` calls
`Path.resolve`, gsplat_viewer line 387), which is the `hres` hypothesis. -/
theorem c9_second_request_already_loaded (fs : FS) (d : String)
    (s : ViewerState) (hres : fs.resolve d = d)
    (h1 : (requestThenLoad fs d s).2 = Outcome.loadedPublished) :
    (requestThenLoad fs d (requestThenLoad fs d s).1).2 = Outcome.alreadyLoaded
    ∧ (requestThenLoad fs d (requestThenLoad fs d s).1).1.data
        = (requestThenLoad fs d s).1.data
    ∧ (requestThenLoad fs d (requestThenLoad fs d s).1).1.cache
        = (requestThenLoad fs d s).1.cache
    ∧ ∃ v : Int, (requestThenLoad fs d (requestThenLoad fs d s).1).1.status
        = (false, "Already loaded ckpt_" ++ toString v ++ ".pt") := by
  rcases hfb : findBestCkpt fs d with ⟨_ | bp, bn⟩
  · exfalso
    unfold requestThenLoad requestLoad doLoad at h1
    simp [hfb] at h1
  · have hs' : ∀ s' : ViewerState, s'.data.dir = some (fs.resolve d) →
        s'.data.ckptNum = some bn →
        requestThenLoad fs d s' =
          ({ s' with
              status := (false, "Already loaded ckpt_" ++ toString bn ++ ".pt"),
              token := s'.token + 1 }, Outcome.alreadyLoaded) := by
      intro s' hdir hnum
      unfold requestThenLoad requestLoad doLoad
      simp only [hfb]
      rw [if_pos ⟨hres ▸ hdir, hnum⟩]
    have hpub : (requestThenLoad fs d s).1.data.dir = some (fs.resolve d)
        ∧ (requestThenLoad fs d s).1.data.ckptNum = some bn := by
      by_cases hal : (s.data.dir = some d ∧ s.data.ckptNum = some bn)
      · exfalso
        unfold requestThenLoad requestLoad doLoad at h1
        simp only [hfb] at h1
        rw [if_pos hal] at h1
        simp at h1
      · unfold requestThenLoad requestLoad doLoad at h1 ⊢
        simp only [hfb] at h1 ⊢
        rw [if_neg hal] at h1 ⊢
        rcases hcg : cacheGet s.cache (fs.resolve d) with _ | cached
        · rcases hlr : fs.loadResult bp with sp | e
          · simp [hcg, doLoadStage, hlr] at h1 ⊢
          · simp [hcg, doLoadStage, hlr] at h1
        · by_cases hcn : cached.ckptNum = some bn
          · simp [hcg, hcn] at h1
          · rcases hlr : fs.loadResult bp with sp | e
            · simp [hcg, hcn, doLoadStage, hlr] at h1 ⊢
            · simp [hcg, hcn, doLoadStage, hlr] at h1
    rw [hs' (requestThenLoad fs d s).1 hpub.1 hpub.2]
    exact ⟨rfl, rfl, rfl, bn, rfl⟩

/-- Concrete witness for `c9_second_request_already_loaded`: a successful
first request followed by an identical second one. -/
theorem c9_second_request_already_loaded_witness :
    (requestThenLoad fsOk "/s" (requestThenLoad fsOk "/s" ViewerState.initial).1).2
      = Outcome.alreadyLoaded :=
  (c9_second_request_already_loaded fsOk "/s" ViewerState.initial rfl (by decide)).1

/-!  C3: the cache's eviction discipline. -/

/-- The cache `get` as the specification words it (strict LRU: a hit promotes
the entry to most-recently-used).  Written from the spec's words, for
comparison with the code's `cacheGet`, which never reorders. -/
def lruGetSpec (c : Cache) (k : String) : Option SceneData × Cache :=
  match c.find? (fun kv => kv.1 = k) with
  | none => (none, c)
  | some kv => (some kv.2, (c.eraseP (fun kv => kv.1 = k)) ++ [kv])

/-- The cache `put` as the specification words it: evict the
least-recently-used entry if at capacity, then insert at the
most-recently-used end.  Written from the spec's words, for comparison with
the code's `cachePut`. -/
def lruPutSpec (c : Cache) (k : String) (v : SceneData) : Cache :=
  (if CACHE_SIZE ≤ c.length then c.drop 1 else c) ++ [(k, v)]

/-- A sample payload for cache experiments. -/
def sdN (i : Nat) : SceneData :=
  { means := some i, quats := some i, scales := some i, opacities := some i
    colors := some i, shDegree := some i, ckptNum := some (i : Int), dir := some "d" }

/-- C3 as stated is false: the code's cache does not promote on a hit.  After
`put A, put B, get A (hit), put C` at capacity 2, a strict LRU cache (the
spec's wording, `lruGetSpec`/`lruPutSpec`) retains `A` and evicts `B`, but
the code's cache (whose `get` cannot reorder: it returns only a value)
evicts `A` — the subsequent `get A` misses. -/
theorem c3_counterexample :
    cacheGet (cachePut (cachePut [] "A" (sdN 1)) "B" (sdN 2)) "A" = some (sdN 1)
    ∧ cacheGet (cachePut (cachePut (cachePut [] "A" (sdN 1)) "B" (sdN 2)) "C" (sdN 3))
        "A" = none
    ∧ (lruGetSpec
        (lruPutSpec
          (lruGetSpec (lruPutSpec (lruPutSpec [] "A" (sdN 1)) "B" (sdN 2)) "A").2
          "C" (sdN 3))
        "A").1 = some (sdN 1) := by
  refine ⟨by decide, by decide, by decide⟩

/-- Auxiliary: the eviction loop is a drop from the oldest end. -/
lemma enforceCacheSize_eq_drop (c : Cache) :
    enforceCacheSize c = c.drop (c.length - CACHE_SIZE) := by
  induction c with
  | nil => rfl
  | cons x xs ih =>
    unfold enforceCacheSize
    by_cases h : (x :: xs).length > CACHE_SIZE
    · rw [if_pos h, ih]
      have hlen : (x :: xs).length - CACHE_SIZE = (xs.length - CACHE_SIZE) + 1 := by
        simp only [List.length_cons] at h ⊢
        omega
      rw [hlen, List.drop_succ_cons]
    · rw [if_neg h]
      have hz : (x :: xs).length - CACHE_SIZE = 0 := by
        simp only [List.length_cons] at h ⊢
        omega
      rw [hz, List.drop_zero]

/-- Auxiliary: inserting a fresh key appends it and drops the overflow from
the oldest end. -/
lemma cachePut_new (c : Cache) (k : String) (v : SceneData)
    (hk : ∀ kv ∈ c, kv.1 ≠ k) :
    cachePut c k v = (c ++ [(k, v)]).drop ((c.length + 1) - CACHE_SIZE) := by
  have hany : c.any (fun kv => kv.1 = k) = false := by
    rw [List.any_eq_false]
    intro kv hkv
    simpa using hk kv hkv
  rw [cachePut, cacheAssign, hany]
  simp only [Bool.false_eq_true, if_false]
  rw [enforceCacheSize_eq_drop]
  simp

/-- Auxiliary list algebra: appending one element to the retained suffix and
re-trimming equals trimming the extended list. -/
lemma suffix_put_algebra (p : List (String × SceneData)) (x : String × SceneData) :
    (p.drop (p.length - CACHE_SIZE) ++ [x]).drop
        ((p.drop (p.length - CACHE_SIZE)).length + 1 - CACHE_SIZE)
      = (p ++ [x]).drop (p.length + 1 - CACHE_SIZE) := by
  rcases Nat.lt_or_ge p.length CACHE_SIZE with h | h
  · rw [Nat.sub_eq_zero_of_le (le_of_lt h), List.drop_zero]
  · have ha : (p.drop (p.length - CACHE_SIZE)).length + 1 - CACHE_SIZE = 1 := by
      simp only [List.length_drop, CACHE_SIZE] at h ⊢
      omega
    have hb : p.length + 1 - CACHE_SIZE = (p.length - CACHE_SIZE) + 1 := by
      simp only [CACHE_SIZE] at h ⊢
      omega
    rw [ha, hb]
    have hc : (p.length - CACHE_SIZE) + 1 ≤ p.length := by
      simp only [CACHE_SIZE] at h ⊢
      omega
    rw [List.drop_append_of_le_length hc]
    have hd : 1 ≤ (p.drop (p.length - CACHE_SIZE)).length := by
      simp only [List.length_drop, CACHE_SIZE] at h ⊢
      omega
    rw [List.drop_append_of_le_length hd, List.drop_drop]

/-- Auxiliary: folding the code's put over distinct keys leaves exactly the
most recent `CACHE_SIZE` insertions, in insertion order. -/
lemma foldl_cachePut_distinct (ks : List (String × SceneData)) :
    (ks.map Prod.fst).Nodup →
      ks.foldl (fun c kv => cachePut c kv.1 kv.2) []
        = ks.drop (ks.length - CACHE_SIZE) := by
  induction ks using List.reverseRecOn with
  | nil => intro _; rfl
  | append_singleton p kv ih =>
    intro hnd
    have hnd' : (p.map Prod.fst).Nodup := by
      rw [List.map_append] at hnd
      exact (List.nodup_append.mp hnd).1
    have hdisj : ∀ a ∈ p.map Prod.fst, a ∉ [kv].map Prod.fst := by
      rw [List.map_append] at hnd
      exact fun a ha hb => (List.nodup_append.mp hnd).2.2 ha hb
    have hk : ∀ x ∈ p.drop (p.length - CACHE_SIZE), x.1 ≠ kv.1 := by
      intro x hx heq
      have hxp : x ∈ p := List.mem_of_mem_drop hx
      exact hdisj x.1 (List.mem_map_of_mem _ hxp) (by simp [heq])
    rw [List.foldl_append, ih hnd']
    simp only [List.foldl_cons, List.foldl_nil]
    rw [cachePut_new _ _ _ hk, List.length_drop]
    have := suffix_put_algebra p kv
    rw [List.length_drop] at this
    rw [this, List.length_append]
    simp

/-- C3 (amended): the code's scene cache is bounded insertion-order (FIFO)
eviction, not LRU — `get` returns a value without reordering, `put` appends a
new key at the most-recent end and then drops from the oldest-inserted end
while over capacity.  After inserting any sequence of distinct keys in order,
the cache holds exactly the last `CACHE_SIZE` insertions, and `get` on every
evicted key is a miss. -/
theorem c3_amended_fifo_eviction (ks : List (String × SceneData))
    (hnd : (ks.map Prod.fst).Nodup) :
    ks.foldl (fun c kv => cachePut c kv.1 kv.2) []
        = ks.drop (ks.length - CACHE_SIZE)
    ∧ ∀ kv ∈ ks.take (ks.length - CACHE_SIZE),
        cacheGet (ks.foldl (fun c kv => cachePut c kv.1 kv.2) []) kv.1 = none := by
  refine ⟨foldl_cachePut_distinct ks hnd, ?_⟩
  intro kv hkv
  rw [foldl_cachePut_distinct ks hnd, cacheGet]
  have hfind : (ks.drop (ks.length - CACHE_SIZE)).find? (fun x => x.1 = kv.1) = none := by
    rw [List.find?_eq_none]
    intro x hx
    have hsplit : ks = ks.take (ks.length - CACHE_SIZE) ++ ks.drop (ks.length - CACHE_SIZE) :=
      (List.take_append_drop _ _).symm
    have hnd2 : ((ks.take (ks.length - CACHE_SIZE)).map Prod.fst
        ++ (ks.drop (ks.length - CACHE_SIZE)).map Prod.fst).Nodup := by
      rw [← List.map_append, ← hsplit]
      exact hnd
    have hdisj := (List.nodup_append.mp hnd2).2.2
    have h1 : kv.1 ∈ (ks.take (ks.length - CACHE_SIZE)).map Prod.fst :=
      List.mem_map_of_mem _ hkv
    have h2 : x.1 ∈ (ks.drop (ks.length - CACHE_SIZE)).map Prod.fst :=
      List.mem_map_of_mem _ hx
    simp only [decide_eq_true_eq]
    intro heq
    exact hdisj h1 (by rw [← heq]; exact h2)
  rw [hfind]
  rfl

/-- Concrete witness for `c3_amended_fifo_eviction`: three distinct keys at
capacity 2 leave the last two and the first misses. -/
theorem c3_amended_fifo_eviction_witness :
    cacheGet
      ([("A", sdN 1), ("B", sdN 2), ("C", sdN 3)].foldl
        (fun c kv => cachePut c kv.1 kv.2) []) "A" = none :=
  (c3_amended_fifo_eviction [("A", sdN 1), ("B", sdN 2), ("C", sdN 3)]
      (by decide)).2 ("A", sdN 1) (by decide)

/-!  C4: where the recursive fallback lives.  The dropdown scanner
`_scan_ckpt_files` (gsplat_viewer lines 267-302) has a two-stage search; the
load path's `_find_best_ckpt` does not. -/

/-- The collect-dedup loop body shared by both stages of `_scan_ckpt_files`:
for each `(filename, full path)` pair, match the version pattern, resolve the
path, skip already-seen resolved paths, and append `(resolved, version)`.
The accumulator is `(seen, out)`. -/
def ckptScanPass (fs : FS) (pairs : List (String × String))
    (acc : List String × List (String × Nat)) : List String × List (String × Nat) :=
  pairs.foldl
    (fun acc pr =>
      match parseCkpt ["pt", "pth"] pr.1 with
      | none => acc
      | some v =>
        let full := fs.resolve pr.2
        if acc.1.contains full then acc
        else (full :: acc.1, acc.2 ++ [(full, v)]))
    acc

/-- Stage 1 of `_scan_ckpt_files` (lines 271-288): glob `ckpt_*.{pt,pth}`
directly under `gsplat_dir/ckpts` (when it is a directory) and under
`gsplat_dir` itself. -/
def scanDirect (fs : FS) (gsplatDir : String) : List String × List (String × Nat) :=
  let ck := gsplatDir ++ "/ckpts"
  let roots := (if fs.pathExists ck && fs.isDir ck then [ck] else []) ++ [gsplatDir]
  roots.foldl
    (fun acc root =>
      ["pt", "pth"].foldl
        (fun acc ext =>
          ckptScanPass fs
            (((fs.dirFiles root).filter
                (fun n => strStarts "ckpt_" n && strEnds ("." ++ ext) n)).map
              (fun n => (n, root ++ "/" ++ n)))
            acc)
        acc)
    ([], [])

/-- Stage 2, the recursive fallback of `_scan_ckpt_files` (lines 289-300):
`rglob` the whole tree under the gsplat directory with the same pattern,
continuing with the stage-1 `seen` set. -/
def scanRecursive (fs : FS) (gsplatDir : String)
    (acc : List String × List (String × Nat)) : List String × List (String × Nat) :=
  ["pt", "pth"].foldl
    (fun acc ext =>
      ckptScanPass fs
        (((fs.rglobFiles gsplatDir).filter
            (fun p => strStarts "ckpt_" (baseNameOf p)
              && strEnds ("." ++ ext) (baseNameOf p))).map
          (fun p => (baseNameOf p, p)))
        acc)
    acc

/-- `_scan_ckpt_files(gsplat_dir)`: stage 1, then the recursive fallback only
when stage 1 found nothing, sorted ascending by version (line 301). -/
def scanCkptFiles (fs : FS) (gsplatDir : String) : List (String × Nat) :=
  let s1 := scanDirect fs gsplatDir
  let out := if s1.2 = [] then (scanRecursive fs gsplatDir s1).2 else s1.2
  List.insertionSort (fun a b => a.2 ≤ b.2) out

/-- The resolution contract as the specification words it (claim C4):
enumerate the canonical artifact subdirectory; if that yields no matches,
fall back to a recursive search of the whole session directory with the same
pattern and max-selection rule; only if that is also empty return none.
Written from the spec's words, for comparison with the code's load-path
resolver `findBestCkpt`. -/
def resolveLatestSpec (fs : FS) (d : String) : Option Nat :=
  let direct := (fs.dirFiles (d ++ "/ckpts")).filterMap (parseCkpt ["pt"])
  if direct ≠ [] then direct.max?
  else
    let recur := (fs.rglobFiles d).filterMap (fun p => parseCkpt ["pt"] (baseNameOf p))
    if recur ≠ [] then recur.max? else none

/-- A session directory whose canonical `ckpts` subdirectory is missing but
which holds `ckpt_5.pt` deeper in its tree. -/
def fsDeep : FS :=
  { resolve := fun p => p
    pathExists := fun _ => false
    isDir := fun _ => false
    dirFiles := fun _ => []
    rglobFiles := fun _ => ["/s/deep/ckpt_5.pt"]
    loadResult := fun _ => .err "unused" }

/-- C4 as stated is false: on `fsDeep` the claim requires the load path to
fall back to the recursive search and resolve version 5, but the load-path
resolver `_find_best_ckpt` returns none (and `_do_load` takes the NotFound
branch); the recursive fallback exists only in the dropdown scanner
`_scan_ckpt_files`, which does find version 5. -/
theorem c4_counterexample :
    findBestCkpt fsDeep "/s" = (none, -1)
    ∧ (doLoad fsDeep "/s" 1 sTok2).2 = Outcome.notFound
    ∧ resolveLatestSpec fsDeep "/s" = some 5
    ∧ scanCkptFiles fsDeep "/s" = [("/s/deep/ckpt_5.pt", 5)] := by
  refine ⟨by decide, by decide, by decide, by decide⟩

/-- Auxiliary: the load-path fold ignores entries that do not match the
checkpoint pattern. -/
lemma findBestCkpt_fold_none (ckptsDir : String) :
    ∀ (l : List String) (acc : Option String × Int),
      (∀ n ∈ l, parseCkpt ["pt"] n = none) →
      l.foldl
        (fun best n =>
          match parseCkpt ["pt"] n with
          | none => best
          | some v =>
            if (v : Int) > best.2 then (some (ckptsDir ++ "/" ++ n), v) else best)
        acc = acc := by
  intro l
  induction l with
  | nil => intro acc _; rfl
  | cons x xs ih =>
    intro acc hno
    rw [List.foldl_cons]
    have hx := hno x (List.mem_cons_self _ _)
    rw [hx]
    exact ih acc (fun n hn => hno n (List.mem_cons_of_mem _ hn))

/-- C4 (amended): the resolver used by the load path enumerates only the
canonical `ckpts` subdirectory — it is a function of that listing alone, and
returns none whenever nothing there matches, with no recursive fallback; the
canonical-then-recursive fallback of the claim exists in the checkpoint
dropdown scanner `_scan_ckpt_files`, which falls back to the recursive stage
exactly when its direct stage found nothing. -/
theorem c4_amended_fallback_only_in_scanner :
    (∀ (fs fs2 : FS) (d : String),
        fs.pathExists (d ++ "/ckpts") = fs2.pathExists (d ++ "/ckpts") →
        fs.dirFiles (d ++ "/ckpts") = fs2.dirFiles (d ++ "/ckpts") →
        findBestCkpt fs d = findBestCkpt fs2 d)
    ∧ (∀ (fs : FS) (d : String),
        (∀ n ∈ fs.dirFiles (d ++ "/ckpts"), parseCkpt ["pt"] n = none) →
        findBestCkpt fs d = (none, -1))
    ∧ (∀ (fs : FS) (gd : String),
        (scanDirect fs gd).2 = [] →
        scanCkptFiles fs gd
          = List.insertionSort (fun a b => a.2 ≤ b.2)
              (scanRecursive fs gd (scanDirect fs gd)).2) := by
  refine ⟨?_, ?_, ?_⟩
  · intro fs fs2 d hpe hdf
    simp only [findBestCkpt]
    rw [hpe, hdf]
  · intro fs d hno
    simp only [findBestCkpt]
    cases hpe : fs.pathExists (d ++ "/ckpts") with
    | false => simp [hpe]
    | true =>
      rw [if_neg (by simp [hpe])]
      exact findBestCkpt_fold_none _ _ _
        (fun n hn => hno n (List.mem_filter.mp hn).1)
  · intro fs gd h
    simp only [scanCkptFiles]
    rw [if_pos h]

/-- Concrete witness for `c4_amended_fallback_only_in_scanner`: the load-path
resolver on `fsDeep` yields none even though the tree holds a checkpoint. -/
theorem c4_amended_fallback_only_in_scanner_witness :
    findBestCkpt fsDeep "/s" = (none, -1) :=
  c4_amended_fallback_only_in_scanner.2.1 fsDeep "/s" (by intro n hn; cases hn)

/-!  C7: which directory names qualify as date entries. -/

/-- `_is_date_dir` (simple_viewer lines 244-246), identical to the check in
`_scan_date_labels` (gsplat_viewer line 408): `len(n) == 10 and n[4] == '-'
and n[7] == '-' and n.replace('-', '').isdigit()`.  Python `isdigit` on the
hyphen-stripped remainder demands a nonempty all-digit string. -/
def isDateDir (n : String) : Bool :=
  let cs := n.toList
  cs.length == 10 && cs[4]? == some '-' && cs[7]? == some '-' &&
    (let ds := cs.filter (fun c => c != '-')
     (!ds.isEmpty) && ds.all Char.isDigit)

/-- The date-name shape as the claim words it: exactly 10 characters, hyphens
at offsets 4 and 7, digits at all eight year/month/day offsets.  Written from
the spec's words, for comparison with the code's `isDateDir`. -/
def dateShapeSpec (n : String) : Bool :=
  let cs := n.toList
  cs.length == 10 && cs[4]? == some '-' && cs[7]? == some '-' &&
    ([0, 1, 2, 3, 5, 6, 8, 9].all fun i => ((cs[i]?).map Char.isDigit).getD false)

/-- C7 as stated is false: the code's check strips every hyphen before the
digit test, so `"2025-13--0"` — which has a hyphen in a day position and
therefore fails the claimed shape — is accepted as a date entry. -/
theorem c7_counterexample :
    isDateDir "2025-13--0" = true ∧ dateShapeSpec "2025-13--0" = false := by
  refine ⟨by decide, by decide⟩

/-- C7 (amended): a name qualifies if and only if it has exactly 10
characters, hyphens at offsets 4 and 7, every non-hyphen character a digit,
and at least one non-hyphen character — extra hyphens inside the
year/month/day positions are also accepted; no calendar validation is
performed, so the calendar-invalid `"2025-13-40"` passes. -/
theorem c7_amended_date_shape (n : String) :
    (isDateDir n = true ↔
      (n.toList.length = 10 ∧ n.toList[4]? = some '-' ∧ n.toList[7]? = some '-'
        ∧ (∀ c ∈ n.toList, c ≠ '-' → c.isDigit = true)
        ∧ ∃ c ∈ n.toList, c ≠ '-'))
    ∧ isDateDir "2025-13-40" = true := by
  refine ⟨?_, by decide⟩
  simp only [isDateDir, Bool.and_eq_true, beq_iff_eq, List.all_eq_true,
    Bool.not_eq_eq_eq_not, Bool.not_true, List.isEmpty_eq_false, ne_eq,
    and_assoc]
  constructor
  · rintro ⟨h1, h2, h3, h4, h5⟩
    refine ⟨h1, h2, h3, ?_, ?_⟩
    · intro c hc hne
      exact h5 c (List.mem_filter.mpr ⟨hc, by simpa using hne⟩)
    · rcases List.exists_mem_of_ne_nil _ h4 with ⟨c, hc⟩
      rcases List.mem_filter.mp hc with ⟨hcm, hcn⟩
      exact ⟨c, hcm, by simpa using hcn⟩
  · rintro ⟨h1, h2, h3, h4, c, hc, hne⟩
    refine ⟨h1, h2, h3, ?_, ?_⟩
    · intro hemp
      have hcf : c ∈ n.toList.filter (fun c => c != '-') :=
        List.mem_filter.mpr ⟨hc, by simpa using hne⟩
      rw [hemp] at hcf
      cases hcf
    · intro x hx
      rcases List.mem_filter.mp hx with ⟨hxm, hxn⟩
      exact h4 x hxm (by simpa using hxn)

/-!  C8: the catalog's modification-time caching (`_scan_date_labels` and
`_scan_multis_for_date`, gsplat_viewer lines 391-445). -/

/-- Filesystem view consumed by the catalog scanners. -/
structure CatFS where
  /-- `self._base_dir.exists()` (line 393). -/
  baseExists : Bool
  /-- `self._base_dir.stat().st_mtime_ns`; `none` when `stat` raises
  (lines 397-400). -/
  baseStat : Option Nat
  /-- `(name, is_dir)` for the entries of `base_dir.iterdir()` (line 404). -/
  baseChildren : List (String × Bool)
  /-- `(base_dir/date).exists()` (line 423). -/
  dateExists : String → Bool
  /-- `(base_dir/date).is_dir()` (line 423). -/
  dateIsDir : String → Bool
  /-- `(base_dir/date).stat().st_mtime_ns`; `none` when it raises
  (lines 427-430). -/
  dateStat : String → Option Nat
  /-- For the glob `multisequence*/gsplat_2dgs` under a date directory
  (line 435): pairs `(m, is_dir)` of each candidate child whose
  `date/m/gsplat_2dgs` path exists (the glob restricts `m` to names starting
  with `multisequence`; the Lean definition re-applies that filter so the
  model does not depend on the field respecting it). -/
  dateGlob : String → List (String × Bool)

/-- The scanner caches of `GsplatViewerBrics` (`_date_labels`, `_base_mtime`,
`_date_to_multis`, `_date_mtimes`, lines 40-43). -/
structure CatState where
  dateLabels : List String
  baseMtime : Option Nat
  dateToMultis : List (String × List String)
  dateMtimes : List (String × Nat)
  deriving DecidableEq, Repr

/-- Python `dict.get` on an association list. -/
def alistGet {α : Type} (l : List (String × α)) (k : String) : Option α :=
  (l.find? (fun kv => kv.1 = k)).map (·.2)

/-- Python `dict[k] = v` on an association list. -/
def alistSet {α : Type} (l : List (String × α)) (k : String) (v : α) :
    List (String × α) :=
  if l.any (fun kv => kv.1 = k) then
    l.map (fun kv => if kv.1 = k then (k, v) else kv)
  else l ++ [(k, v)]

/-- Python `dict.pop(k, None)` on an association list. -/
def alistPop {α : Type} (l : List (String × α)) (k : String) : List (String × α) :=
  l.eraseP (fun kv => kv.1 = k)

/-- The label-collection loop of `_scan_date_labels` (lines 403-412):
immediate child directories with the date shape, sorted ascending, optionally
capped to the latest `max_dates`. -/
def freshDateScan (fs : CatFS) (maxDates : Option Nat) : List String :=
  let labels := (fs.baseChildren.filter (fun c => c.2 && isDateDir c.1)).map Prod.fst
  let labels := List.insertionSort (fun a b : String => a ≤ b) labels
  match maxDates with
  | some m => if 0 < m then labels.drop (labels.length - m) else labels
  | none => labels

/-- `_scan_date_labels()` (lines 391-417): a missing base yields an empty
listing and clears the cache; otherwise the cached listing is returned only
when it is nonempty, a timestamp was stored, and the current timestamp
equals it; otherwise rescan and replace cache and timestamp. -/
def scanDateLabels (fs : CatFS) (maxDates : Option Nat) (st : CatState) :
    List String × CatState :=
  if ¬ fs.baseExists then ([], { st with dateLabels := [], baseMtime := none })
  else
    let baseMtime := fs.baseStat
    if st.dateLabels ≠ [] ∧ st.baseMtime ≠ none ∧ baseMtime = st.baseMtime then
      (st.dateLabels, st)
    else
      let labels := freshDateScan fs maxDates
      (labels, { st with dateLabels := labels, baseMtime := baseMtime })

/-- The sequence-collection loop of `_scan_multis_for_date` (lines 433-442):
glob matches with an existing `gsplat_2dgs` directory, sorted ascending,
optionally capped to the latest `max_multis`. -/
def freshMultiScan (fs : CatFS) (maxMultis : Option Nat) (d : String) : List String :=
  let multis := ((fs.dateGlob d).filter
      (fun c => strStarts "multisequence" c.1 && c.2)).map Prod.fst
  let multis := List.insertionSort (fun a b : String => a ≤ b) multis
  match maxMultis with
  | some m => if 0 < m then multis.drop (multis.length - m) else multis
  | none => multis

/-- `_scan_multis_for_date(date_label)` (lines 419-445): `None` yields `[]`;
a missing or non-directory date drops both cache entries; otherwise the
cached listing (empty or not) is returned when the stored timestamp equals
the current one and the key is cached; otherwise rescan and replace both
entries.  A failing `stat` is `0` (line 430). -/
def scanMultisForDate (fs : CatFS) (maxMultis : Option Nat) (st : CatState)
    (dateLabel : Option String) : List String × CatState :=
  match dateLabel with
  | none => ([], st)
  | some d =>
    if ¬ (fs.dateExists d && fs.dateIsDir d) then
      ([], { st with dateToMultis := alistPop st.dateToMultis d
                     dateMtimes := alistPop st.dateMtimes d })
    else
      let mtime := (fs.dateStat d).getD 0
      if alistGet st.dateMtimes d = some mtime
          ∧ (alistGet st.dateToMultis d).isSome then
        ((alistGet st.dateToMultis d).getD [], st)
      else
        let multis := freshMultiScan fs maxMultis d
        (multis, { st with dateToMultis := alistSet st.dateToMultis d multis
                           dateMtimes := alistSet st.dateMtimes d mtime })

/-- The scanner caches at construction time (lines 40-43). -/
def CatState.initial : CatState :=
  { dateLabels := [], baseMtime := none, dateToMultis := [], dateMtimes := [] }

/-- A base directory with no date children and timestamp 5. -/
def catFsBefore : CatFS :=
  { baseExists := true
    baseStat := some 5
    baseChildren := []
    dateExists := fun _ => false
    dateIsDir := fun _ => false
    dateStat := fun _ => none
    dateGlob := fun _ => [] }

/-- `catFsBefore` after a date directory is created out-of-band without the
base directory's timestamp changing. -/
def catFsAfter : CatFS := { catFsBefore with baseChildren := [("2025-01-01", true)] }

/-- The cache state after scanning `catFsBefore` from startup. -/
def stEmptyScan : CatState :=
  { dateLabels := [], baseMtime := some 5, dateToMultis := [], dateMtimes := [] }

/-- C8 as stated is false for the root date listing: after a scan that found
no dates (a reachable state), a second call with an unchanged timestamp does
not return the cached empty listing — the nonemptiness guard forces a rescan,
which picks up a child created out-of-band without touching the timestamp. -/
theorem c8_counterexample :
    scanDateLabels catFsBefore none CatState.initial = ([], stEmptyScan)
    ∧ catFsAfter.baseStat = stEmptyScan.baseMtime
    ∧ (scanDateLabels catFsAfter none stEmptyScan).1 = ["2025-01-01"]
    ∧ (scanDateLabels catFsAfter none stEmptyScan).1 ≠ stEmptyScan.dateLabels := by
  refine ⟨by decide, by decide, by decide, by decide⟩

/-- C8 (amended): the per-date sequence listing returns the cached listing —
empty or not — whenever the stored timestamp equals the current one, without
rescanning (so out-of-band changes that keep the timestamp are invisible);
the root date listing does so only when the cached listing is also nonempty
and a timestamp was stored — an empty cached date listing is rescanned even
with matching timestamps; when the timestamps differ, both listings rescan
and replace the cache entry and timestamp. -/
theorem c8_amended_mtime_cache :
    (∀ (fs : CatFS) (md : Option Nat) (st : CatState),
        fs.baseExists = true → st.dateLabels ≠ [] → st.baseMtime ≠ none →
        fs.baseStat = st.baseMtime →
        scanDateLabels fs md st = (st.dateLabels, st))
    ∧ (∀ (fs : CatFS) (md : Option Nat) (st : CatState),
        fs.baseExists = true → fs.baseStat ≠ st.baseMtime →
        scanDateLabels fs md st
          = (freshDateScan fs md,
             { st with dateLabels := freshDateScan fs md, baseMtime := fs.baseStat }))
    ∧ (∀ (fs : CatFS) (mm : Option Nat) (st : CatState) (d : String)
          (ms : List String),
        fs.dateExists d = true → fs.dateIsDir d = true →
        alistGet st.dateMtimes d = some ((fs.dateStat d).getD 0) →
        alistGet st.dateToMultis d = some ms →
        scanMultisForDate fs mm st (some d) = (ms, st))
    ∧ (∀ (fs : CatFS) (mm : Option Nat) (st : CatState) (d : String),
        fs.dateExists d = true → fs.dateIsDir d = true →
        alistGet st.dateMtimes d ≠ some ((fs.dateStat d).getD 0) →
        scanMultisForDate fs mm st (some d)
          = (freshMultiScan fs mm d,
             { st with
                dateToMultis := alistSet st.dateToMultis d (freshMultiScan fs mm d)
                dateMtimes := alistSet st.dateMtimes d ((fs.dateStat d).getD 0) })) := by
  refine ⟨?_, ?_, ?_, ?_⟩
  · intro fs md st hex hne hstored heq
    simp only [scanDateLabels]
    rw [if_neg (by simp [hex]), if_pos ⟨hne, hstored, heq⟩]
  · intro fs md st hex hneq
    simp only [scanDateLabels]
    rw [if_neg (by simp [hex]),
      if_neg (by intro hx; exact hneq hx.2.2)]
  · intro fs mm st d ms hex hdir hmt hcached
    simp only [scanMultisForDate]
    rw [if_neg (by simp [hex, hdir]), if_pos ⟨hmt, by rw [hcached]; rfl⟩, hcached]
    rfl
  · intro fs mm st d hex hdir hneq
    simp only [scanMultisForDate]
    rw [if_neg (by simp [hex, hdir]),
      if_neg (by intro hx; exact hneq hx.1)]

/-- Concrete witness for `c8_amended_mtime_cache`: a cached empty sequence
listing with matching timestamps is served from the cache. -/
theorem c8_amended_mtime_cache_witness :
    scanMultisForDate
      ({ catFsBefore with
          dateExists := fun _ => true,
          dateIsDir := fun _ => true,
          dateStat := fun _ => some 7 })
      none
      ({ CatState.initial with
          dateMtimes := [("2025-01-01", 7)], dateToMultis := [("2025-01-01", [])] })
      (some "2025-01-01")
    = ([], { CatState.initial with
        dateMtimes := [("2025-01-01", 7)], dateToMultis := [("2025-01-01", [])] }) :=
  c8_amended_mtime_cache.2.2.1 _ none _ "2025-01-01" [] rfl rfl (by decide) (by decide)

/-!  C10: the render callback before any payload is published
(`viewer_render_fn`, simple_viewer lines 155-166). -/

/-- The slice of `RenderTabState` the callback reads before rasterizing:
render size selection and the background color (0-255 components, exact
rationals standing for the float arithmetic). -/
structure RenderTab where
  previewRender : Bool
  renderWidth : Nat
  renderHeight : Nat
  viewerWidth : Nat
  viewerHeight : Nat
  backgrounds : List ℚ

/-- An image as a height-indexed list of width-indexed rows of channel
lists. -/
abbrev Image := List (List (List ℚ))

/-- `viewer_render_fn` (lines 155-166 and the rasterization call after): pick
the render size from the tab state; when nothing is published yet
(`data["means"] is None`) return
`np.tile((backgrounds/255).reshape(1,1,3), (height, width, 1))` — a solid
background image — without touching any other payload field; otherwise defer
to the opaque rasterizer `raster`. -/
def viewerRenderFn (raster : SceneData → Nat → Nat → RenderTab → Image)
    (d : SceneData) (rts : RenderTab) : Image :=
  let width := if rts.previewRender then rts.renderWidth else rts.viewerWidth
  let height := if rts.previewRender then rts.renderHeight else rts.viewerHeight
  if d.means = none then
    List.replicate height (List.replicate width (rts.backgrounds.map (fun b => b / 255)))
  else raster d width height rts

/-- C10: before any payload has been published the callback returns a solid
background image of exactly height x width x 3, every pixel the configured
background color scaled by 1/255, and the result neither invokes the
rasterizer nor reads any payload field — two states with no means (whatever
their other fields) and two different rasterizers give the identical image. -/
theorem c10_render_without_payload
    (raster raster2 : SceneData → Nat → Nat → RenderTab → Image)
    (d d2 : SceneData) (rts : RenderTab)
    (hm : d.means = none) (hm2 : d2.means = none)
    (hb : rts.backgrounds.length = 3) :
    (viewerRenderFn raster d rts).length
        = (if rts.previewRender then rts.renderHeight else rts.viewerHeight)
    ∧ (∀ row ∈ viewerRenderFn raster d rts,
        row.length = (if rts.previewRender then rts.renderWidth else rts.viewerWidth)
        ∧ ∀ px ∈ row, px.length = 3
            ∧ px = rts.backgrounds.map (fun b => b / 255))
    ∧ viewerRenderFn raster d rts = viewerRenderFn raster2 d2 rts := by
  refine ⟨?_, ?_, ?_⟩
  · simp [viewerRenderFn, hm]
  · intro row hrow
    rw [viewerRenderFn] at hrow
    simp only [hm, if_true] at hrow
    have hrow' := List.eq_of_mem_replicate (by simpa using hrow)
    subst hrow'
    refine ⟨by simp, ?_⟩
    intro px hpx
    have hpx' := List.eq_of_mem_replicate hpx
    subst hpx'
    exact ⟨by simp [hb], rfl⟩
  · simp [viewerRenderFn, hm, hm2]

/-- Concrete witness for `c10_render_without_payload`: a fresh viewer state
with a red background renders the same solid tile under any rasterizer. -/
theorem c10_render_without_payload_witness :
    viewerRenderFn (fun _ _ _ _ => []) SceneData.initial
        ⟨false, 4, 3, 2, 1, [255, 0, 0]⟩
      = viewerRenderFn (fun _ _ _ _ => [[[1]]]) SceneData.initial
        ⟨false, 4, 3, 2, 1, [255, 0, 0]⟩ :=
  (c10_render_without_payload (fun _ _ _ _ => []) (fun _ _ _ _ => [[[1]]])
    SceneData.initial SceneData.initial ⟨false, 4, 3, 2, 1, [255, 0, 0]⟩
    rfl rfl rfl).2.2

end GsplatBrics
